import Mathlib

/-!
Shallow embedding of the meganote-be backend (Express + Mongoose) for
verification of its specification claims.

Documents are modelled as Lean structures, the Mongo collections as lists in
insertion order, `findOne`/`findById` as `List.find?` (Mongo returns the first
document in natural order), `findOneAndUpdate` as an update of the first
matching element, and the `collation({locale: "en", strength: 2})` queries as
case-insensitive string comparison via `String.toLower`.  Timestamps are
naturals (milliseconds).  bcrypt hashing is modelled by an injective tagging
function.  Fallible JavaScript evaluation (an uncaught TypeError) is modelled
with `Except`.
-/

namespace Meganote

/-- A JavaScript value as observed on a dynamic property read: reading an
absent property yields `undefined`. -/
inductive JsValue where
  | str (s : String)
  | num (n : Nat)
  | undefined
deriving Repr, DecidableEq

/-- A user document, after `src/models/User.js` (fields and defaults of
`userSchema`). -/
structure UserDoc where
  _id : Nat
  username : String
  fullname : String
  email : String
  password : String
  avatarUrl : String
  role : String
  active : Bool
  isDeleted : Bool
  deletedAt : Option Nat
  passwordResetToken : Option String
  passwordResetAt : Option Nat
  createdAt : Nat
deriving Repr, DecidableEq

/-- A note document, after the note schema (`noteSchema`): owning user id,
title, text, status, the auto-incremented `ticket`, and the soft-delete
fields. -/
structure NoteDoc where
  _id : Nat
  user : Nat
  title : String
  text : String
  status : String
  ticket : Nat
  isDeleted : Bool
  deletedAt : Option Nat
  createdAt : Nat
deriving Repr, DecidableEq

/-- The backing store: the two collections in insertion order, plus the
`ticketNums` counter of the AutoIncrement plugin.

Modelled from the spec: the mongoose-sequence plugin applied by
`noteSchema.plugin(AutoIncrement, { inc_field: "ticket", id: "ticketNums",
start_seq: 500 })` is a dependency whose implementation is not part of this
repository; per the spec it keeps a dedicated counter record updated by an
atomic increment-and-read, starting at 500.  `counter` is the next ticket
value to assign. -/
structure DB where
  users : List UserDoc
  notes : List NoteDoc
  counter : Nat
deriving Repr, DecidableEq

/-- Lowercasing for case-insensitive comparison, over the character list of
the string (kernel-evaluable, unlike `String.toLower`). -/
def lowerChars (s : String) : List Char :=
  s.data.map Char.toLower

/-- Case-insensitive equality, modelling a Mongo query under
`collation({ locale: "en", strength: 2 })`. -/
def ciEq (a b : String) : Bool :=
  lowerChars a == lowerChars b

/-- bcrypt.hash with 10 salt rounds, modelled as an injective tagging
function (the claims depend only on the stored value being the hash of the
submitted password). -/
def bcryptHash (password : String) : String :=
  "$2b$10$" ++ password

/-- bcrypt.compare: the submitted password matches the stored hash. -/
def bcryptCompare (password hash : String) : Bool :=
  bcryptHash password == hash

/-- Mongoose role default: `!role` is falsy for an absent or empty string
field, in which case the schema default "Employee" applies. -/
def roleOrDefault (r : Option String) : String :=
  match r with
  | none => "Employee"
  | some s => if s = "" then "Employee" else s

/-- `findById` on the users collection: primary-key lookup, which ignores
`isDeleted`. -/
def userById (users : List UserDoc) (id : Nat) : Option UserDoc :=
  users.find? (fun u => u._id == id)

/-- `findById` on the notes collection. -/
def noteById (notes : List NoteDoc) (id : Nat) : Option NoteDoc :=
  notes.find? (fun n => n._id == id)

/-- Replace the first element satisfying `p` by its image under `f`
(the write half of `findOneAndUpdate`). -/
def updateFirst {α : Type} (p : α → Bool) (f : α → α) : List α → List α
  | [] => []
  | x :: xs => if p x then f x :: xs else x :: updateFirst p f xs

/-- `findOneAndUpdate(query, update, {new: true})`: returns the updated
document (or `none`) together with the updated collection. -/
def findOneAndUpdate {α : Type} (p : α → Bool) (f : α → α) (l : List α) :
    Option α × List α :=
  match l.find? p with
  | none => (none, l)
  | some x => (some (f x), updateFirst p f l)

/-! ### createUser (src/controllers/userController.js) -/

/-- Request body of POST /users; `role` is optional. -/
structure CreateUserBody where
  username : String
  fullname : String
  email : String
  password : String
  role : Option String
deriving Repr, DecidableEq

/-- Responses of createUser: 400, 409, 201. -/
inductive CreateUserResult where
  | badRequest (msg : String)
  | conflict (msg : String)
  | created (msg : String)
deriving Repr, DecidableEq

/-- The userController createUser handler.  The duplicate-username check is
`User.findOne({ username }).collation(strength 2)` and the duplicate-email
check `User.findOne({ email })`; neither query filters on `isDeleted`.
`newId` is the Mongo-generated object id and `now` the creation time. -/
def createUser (db : DB) (body : CreateUserBody) (newId now : Nat) :
    CreateUserResult × DB :=
  if body.username = "" ∨ body.fullname = "" ∨ body.email = "" ∨
      body.password = "" then
    (.badRequest "Missing required data!", db)
  else
    match db.users.find? (fun u => ciEq u.username body.username) with
    | some _ => (.conflict "This username already exists!", db)
    | none =>
      match db.users.find? (fun u => u.email == body.email) with
      | some _ => (.conflict "This email has already been used!", db)
      | none =>
        let u : UserDoc :=
          { _id := newId
            username := body.username
            fullname := body.fullname
            email := body.email
            password := bcryptHash body.password
            avatarUrl := "https://i.redd.it/6qk9jq22ho541.jpg"
            role := roleOrDefault body.role
            active := true
            isDeleted := false
            deletedAt := none
            passwordResetToken := none
            passwordResetAt := none
            createdAt := now }
        (.created ("New user \"" ++ body.username ++
            "\" created successfully!"),
          { db with users := db.users ++ [u] })

/-! ### createNote (src/controllers/noteController.js) -/

/-- Request body of POST /notes; `user` is the owner's object id
(`none` models a missing/falsy field). -/
structure CreateNoteBody where
  user : Option Nat
  title : String
  text : String
  status : String
deriving Repr, DecidableEq

/-- Responses of createNote. -/
inductive CreateNoteResult where
  | badRequest (msg : String)
  | conflict (msg : String)
  | created (msg : String)
deriving Repr, DecidableEq

/-- The noteController createNote handler.  The duplicate-title check is
`Note.findOne({ title }).collation(strength 2)` with no `isDeleted`
condition.  On success the new note receives `ticket = db.counter` and the
counter is atomically incremented. -/
def createNote (db : DB) (body : CreateNoteBody) (newId now : Nat) :
    CreateNoteResult × DB :=
  match body.user with
  | none => (.badRequest "Missing required data", db)
  | some uid =>
    if body.title = "" ∨ body.text = "" ∨ body.status = "" then
      (.badRequest "Missing required data", db)
    else
      match db.notes.find? (fun n => ciEq n.title body.title) with
      | some _ => (.conflict "This note title has already been used!", db)
      | none =>
        let n : NoteDoc :=
          { _id := newId
            user := uid
            title := body.title
            text := body.text
            status := body.status
            ticket := db.counter
            isDeleted := false
            deletedAt := none
            createdAt := now }
        (.created "New note created successfully!",
          { db with notes := db.notes ++ [n], counter := db.counter + 1 })

/-! ### Serialized user objects (what res.json emits) -/

/-- The user object as serialized into a JSON response.  `password` is
`some hash` when the query projected the field (the schema does not mark
`password` with `select: false`), and `none` when the handler used
`.select("-password")`. -/
structure UserView where
  _id : Nat
  username : String
  fullname : String
  email : String
  password : Option String
  avatarUrl : String
  role : String
  active : Bool
  createdAt : Nat
deriving Repr, DecidableEq

/-- Serialization of a user document fetched without any projection. -/
def toViewFull (u : UserDoc) : UserView :=
  { _id := u._id
    username := u.username
    fullname := u.fullname
    email := u.email
    password := some u.password
    avatarUrl := u.avatarUrl
    role := u.role
    active := u.active
    createdAt := u.createdAt }

/-- Serialization of a user document fetched with `.select("-password")`. -/
def toViewNoPassword (u : UserDoc) : UserView :=
  { toViewFull u with password := none }

/-! ### Read endpoints for users/accounts -/

/-- Response of GET /users/:id and GET /account/:id. -/
inductive SingleUserResult where
  | badRequest (msg : String)
  | ok (user : UserView)
deriving Repr, DecidableEq

/-- userController getSingleUser: `User.findById(req.params.id)` with no
projection, so the full document (password included) is serialized. -/
def getSingleUser (db : DB) (id : Nat) : SingleUserResult :=
  match userById db.users id with
  | none => .badRequest ("No user with id: " ++ toString id)
  | some u => .ok (toViewFull u)

/-- accountController getSingleAccount: same shape as getSingleUser,
`User.findById(req.params.id)` with no projection. -/
def getSingleAccount (db : DB) (id : Nat) : SingleUserResult :=
  match userById db.users id with
  | none => .badRequest ("No user with id: " ++ toString id)
  | some u => .ok (toViewFull u)

/-- Response of GET /users/all. -/
inductive UsersListResult where
  | badRequest (msg : String)
  | ok (users : List UserView)
deriving Repr, DecidableEq

/-- userController getAllUsers:
`User.find({ isDeleted: false }).select("-password").lean()`. -/
def getAllUsers (db : DB) : UsersListResult :=
  let users := (db.users.filter (fun u => u.isDeleted == false)).map
    toViewNoPassword
  if users.length = 0 then .badRequest "No users found!" else .ok users

/-! ### Query composition and pagination -/

/-- Default for `page = parseInt(page) || 1`: an absent, unparsable or zero
value falls back to 1. -/
def pageOrDefault (p : Option Nat) : Nat :=
  match p with
  | none => 1
  | some 0 => 1
  | some q => q

/-- Default for `limit = parseInt(limit) || 10`. -/
def limitOrDefault (l : Option Nat) : Nat :=
  match l with
  | none => 10
  | some 0 => 10
  | some q => q

/-- JS truthiness of a query-string filter: an absent or empty string is
falsy and the corresponding condition is not pushed. -/
def strFilter (o : Option String) : Option String :=
  match o with
  | some "" => none
  | x => x

/-- `$regex: pat, $options: "i"` where `pat` is a literal: case-insensitive
substring match. -/
def ciContainsSub (hay pat : String) : Bool :=
  (lowerChars hay).tails.any (fun t => (lowerChars pat).isPrefixOf t)

/-- `Math.ceil(count / limit)` on naturals. -/
def ceilDiv (a b : Nat) : Nat :=
  (a + b - 1) / b

/-- GET /users query parameters. -/
structure UsersQuery where
  page : Option Nat
  limit : Option Nat
  fullname : Option String
  role : Option String
  active : Option Bool
deriving Repr, DecidableEq

/-- The `$and` of getUsers filter conditions: `{isDeleted: false}` plus the
optional fullname/role regex and active conditions. -/
def userMatches (q : UsersQuery) (u : UserDoc) : Bool :=
  u.isDeleted == false &&
  (match strFilter q.fullname with
   | some s => ciContainsSub u.fullname s
   | none => true) &&
  (match strFilter q.role with
   | some s => ciContainsSub u.role s
   | none => true) &&
  (match q.active with
   | some b => u.active == b
   | none => true)

/-- `.sort({ createdAt: -1 })` order on user documents: newer first. -/
def newerUser (a b : UserDoc) : Prop :=
  b.createdAt ≤ a.createdAt

instance : DecidableRel newerUser :=
  fun _ _ => Nat.decLe _ _

instance : IsTotal UserDoc newerUser :=
  ⟨fun a b => Nat.le_total b.createdAt a.createdAt⟩

instance : IsTrans UserDoc newerUser :=
  ⟨fun _ _ _ h1 h2 => Nat.le_trans h2 h1⟩

/-- Response of paginated GET /users. -/
inductive PagedUsersResult where
  | badRequest (msg : String)
  | ok (users : List UserView) (totalPage : Nat) (count : Nat)
deriving Repr, DecidableEq

/-- userController getUsers: count the matches, compute
`totalPage = Math.ceil(count/limit)` and `offset = limit*(page-1)`, then
find, sort by createdAt descending, skip, limit; a response with the page
(serialized without projection), totalPage and count — or 400 when the
resulting page is empty. -/
def getUsers (db : DB) (q : UsersQuery) : PagedUsersResult :=
  let page := pageOrDefault q.page
  let limit := limitOrDefault q.limit
  let matched := db.users.filter (userMatches q)
  let count := matched.length
  let totalPage := ceilDiv count limit
  let offset := limit * (page - 1)
  let pageUsers := ((List.insertionSort newerUser matched).drop offset).take
    limit
  if pageUsers.length = 0 then .badRequest "No users found!"
  else .ok (pageUsers.map toViewFull) totalPage count

/-- GET /notes query parameters. -/
structure NotesQuery where
  page : Option Nat
  limit : Option Nat
  ticket : Option Nat
  term : Option String
  status : Option String
deriving Repr, DecidableEq

/-- The `$and` of getNotes filter conditions: `{isDeleted: false}`, the
optional exact ticket condition, the term condition (owner fullnames first,
falling back to title substring), and the status condition
`{status: {$ne: s}}` — an exclusion. -/
def noteMatches (db : DB) (q : NotesQuery) (n : NoteDoc) : Bool :=
  n.isDeleted == false &&
  (match q.ticket with
   | some t => n.ticket == t
   | none => true) &&
  (match strFilter q.term with
   | some s =>
     let ids := (db.users.filter (fun u => ciContainsSub u.fullname s)).map
       (fun u => u._id)
     if ids.length ≠ 0 then ids.contains n.user else ciContainsSub n.title s
   | none => true) &&
  (match strFilter q.status with
   | some s => n.status != s
   | none => true)

/-- `.sort({ createdAt: -1 })` order on note documents: newer first. -/
def newerNote (a b : NoteDoc) : Prop :=
  b.createdAt ≤ a.createdAt

instance : DecidableRel newerNote :=
  fun _ _ => Nat.decLe _ _

instance : IsTotal NoteDoc newerNote :=
  ⟨fun a b => Nat.le_total b.createdAt a.createdAt⟩

instance : IsTrans NoteDoc newerNote :=
  ⟨fun _ _ _ h1 h2 => Nat.le_trans h2 h1⟩

/-- The note object emitted by getNotes/getSingleNote: the note's fields
plus the owner's fullname (as `username`) and role, or "Unassigned"/"" when
the owner lookup fails. -/
structure NoteView where
  _id : Nat
  title : String
  text : String
  username : String
  role : String
  user : Nat
  status : String
  createdAt : Nat
  ticket : Nat
deriving Repr, DecidableEq

/-- The per-note enrichment step of getNotes. -/
def enrichNote (db : DB) (n : NoteDoc) : NoteView :=
  match userById db.users n.user with
  | some u =>
    { _id := n._id
      title := n.title
      text := n.text
      username := u.fullname
      role := u.role
      user := n.user
      status := n.status
      createdAt := n.createdAt
      ticket := n.ticket }
  | none =>
    { _id := n._id
      title := n.title
      text := n.text
      username := "Unassigned"
      role := ""
      user := n.user
      status := n.status
      createdAt := n.createdAt
      ticket := n.ticket }

/-- Response of paginated GET /notes. -/
inductive PagedNotesResult where
  | badRequest (msg : String)
  | ok (notes : List NoteView) (totalPage : Nat) (count : Nat)
deriving Repr, DecidableEq

/-- noteController getNotes: same count/totalPage/offset/sort/skip/limit
pipeline as getUsers over the note filter, then the enrichment map; 400 when
the resulting page is empty. -/
def getNotes (db : DB) (q : NotesQuery) : PagedNotesResult :=
  let page := pageOrDefault q.page
  let limit := limitOrDefault q.limit
  let matched := db.notes.filter (noteMatches db q)
  let count := matched.length
  let totalPage := ceilDiv count limit
  let offset := limit * (page - 1)
  let pageNotes := ((List.insertionSort newerNote matched).drop offset).take
    limit
  if pageNotes.length = 0 then .badRequest "No notes found!"
  else .ok (pageNotes.map (enrichNote db)) totalPage count

/-- The page of an answered paginated notes request ([] on an error
response). -/
def PagedNotesResult.page : PagedNotesResult → List NoteView
  | .ok ns _ _ => ns
  | .badRequest _ => []

/-- The page of an answered paginated users request ([] on an error
response). -/
def PagedUsersResult.pageList : PagedUsersResult → List UserView
  | .ok us _ _ => us
  | .badRequest _ => []

/-- The list of a GET /users/all response ([] on an error response). -/
def UsersListResult.list : UsersListResult → List UserView
  | .ok us => us
  | .badRequest _ => []

/-- The serialized password of a single-user response. -/
def SingleUserResult.passwordOf : SingleUserResult → Option String
  | .ok v => v.password
  | .badRequest _ => none

/-! ### login and the session middleware -/

/-- The claim bundle signed into the access token at login:
`UserInfo: { username, role, avatarUrl, _id }`. -/
structure TokenPayload where
  username : String
  role : String
  avatarUrl : String
  _id : Nat
deriving Repr, DecidableEq

/-- Response of POST /auth (login). -/
inductive LoginResult where
  | badRequest (msg : String)
  | unauthorized (msg : String)
  | ok (user : UserView) (token : TokenPayload) (msg : String)
deriving Repr, DecidableEq

/-- authController login: exact-match `User.findOne({ username })` (no
collation here), the active check, bcrypt.compare, then a response carrying
the full found user document and the signed token payload. -/
def login (db : DB) (username password : String) : LoginResult :=
  if username = "" ∨ password = "" then
    .badRequest "Missing username or password!"
  else
    match db.users.find? (fun u => u.username == username) with
    | none => .unauthorized "Username not found!"
    | some u =>
      if u.active = false then .unauthorized "Username not found!"
      else if bcryptCompare password u.password = false then
        .unauthorized "Incorrect password!"
      else
        .ok (toViewFull u) ⟨u.username, u.role, u.avatarUrl, u._id⟩
          "Logged in successfully!"

/-- The decoded `UserInfo` claim object as a JavaScript object: dynamic
property reads on it yield `undefined` for absent keys. -/
def userInfoObj (p : TokenPayload) : List (String × JsValue) :=
  [("username", .str p.username), ("role", .str p.role),
   ("avatarUrl", .str p.avatarUrl), ("_id", .num p._id)]

/-- JavaScript property read on an object. -/
def jsGet (o : List (String × JsValue)) (k : String) : JsValue :=
  match o.find? (fun kv => kv.1 == k) with
  | some kv => kv.2
  | none => .undefined

/-- What verifyJWT attaches to the request before calling next():
`req.user` and `req.roles`. -/
structure ReqContext where
  user : JsValue
  roles : JsValue
deriving Repr, DecidableEq

/-- Outcome of the verifyJWT middleware. -/
inductive AuthOutcome where
  | unauthorized
  | forbidden
  | proceed (ctx : ReqContext)
deriving Repr, DecidableEq

/-- The verifyJWT middleware.  `decoded` is the outcome of
`jwt.verify(token, secret)` (`none` on a bad/expired signature), abstracting
the cryptographic check.  On success the middleware sets
`req.user = decoded.UserInfo.username` and
`req.roles = decoded.UserInfo.roles` and calls next(). -/
def verifyJWT (authHeader : Option String) (decoded : Option TokenPayload) :
    AuthOutcome :=
  match authHeader with
  | none => .unauthorized
  | some h =>
    if ("Bearer ".data.isPrefixOf h.data) = false then .unauthorized
    else
      match decoded with
      | none => .forbidden
      | some p =>
        .proceed ⟨jsGet (userInfoObj p) "username",
          jsGet (userInfoObj p) "roles"⟩

/-! ### forgotPassword / resetPassword (auth controller) -/

/-- Whether a call to `sendMail(to, subject, text)` raises an exception
observable by the caller, as a function of the delivery outcome.
`utils/sendMail.js` invokes `transporter.sendMail(options, (error, info) =>
{ if (error) console.log(error); else console.log(info); })`: a delivery
failure is reported to the callback, which only logs it, so the call never
throws for either outcome. -/
def sendMailThrows : Bool → Bool :=
  fun _ => false

/-- Response of POST /auth/forgotpassword. -/
inductive ForgotResult where
  | badRequest (msg : String)
  | okMsg (msg : String)
  | serverError (msg : String)
deriving Repr, DecidableEq

/-- authController forgotPassword: find the user by email, store the hashed
reset token and issuance time, then try to send the mail; the catch block
rolls the two fields back and reports 500 — but it is entered only if
sendMail throws.  `tokenHash` is the hash of the generated random secret and
`deliveryOk` the mail relay outcome. -/
def forgotPassword (db : DB) (email tokenHash : String) (now : Nat)
    (deliveryOk : Bool) : ForgotResult × DB :=
  match db.users.find? (fun u => u.email == email) with
  | none =>
    (.badRequest
      "There is no user with that email address. Please check your email again!",
      db)
  | some u =>
    let issued := updateFirst (fun v => v._id == u._id)
      (fun v => { v with passwordResetToken := some tokenHash,
                         passwordResetAt := some now }) db.users
    let db1 : DB := { db with users := issued }
    if sendMailThrows deliveryOk then
      let rolledBack := updateFirst (fun v => v._id == u._id)
        (fun v => { v with passwordResetToken := none,
                           passwordResetAt := none }) db1.users
      let db2 : DB := { db1 with users := rolledBack }
      (.serverError
        "The server encounters an error when sending password reset email!",
        db2)
    else
      (.okMsg
        "Password reset email sent! Please use the reset link within 1 hour!",
        db1)

/-- An uncaught JavaScript runtime error. -/
inductive JsError where
  | typeError (msg : String)
deriving Repr, DecidableEq

instance {ε α : Type} [DecidableEq ε] [DecidableEq α] :
    DecidableEq (Except ε α) := fun a b =>
  match a, b with
  | .error e, .error f =>
    if h : e = f then .isTrue (by rw [h])
    else .isFalse (by intro hh; cases hh; exact h rfl)
  | .error _, .ok _ => .isFalse (by intro hh; cases hh)
  | .ok _, .error _ => .isFalse (by intro hh; cases hh)
  | .ok x, .ok y =>
    if h : x = y then .isTrue (by rw [h])
    else .isFalse (by intro hh; cases hh; exact h rfl)

/-- Response of PATCH /auth/resetpassword/:token. -/
inductive ResetResult where
  | badRequest (msg : String)
  | okMsg (msg : String)
deriving Repr, DecidableEq

/-- Milliseconds in the 60-minute expiry horizon
(`resetDate.setMinutes(resetDate.getMinutes() + 60)`). -/
def msPerHour : Nat :=
  3600000

/-- The resetPassword lookup
`User.findOne({ passwordResetToken, passwordResetAt: { $lt: date } })`:
token match plus issuance strictly before now (`$lt` on a Date matches only
date values, so a null `passwordResetAt` does not match). -/
def resetLookup (tok : String) (now : Nat) (u : UserDoc) : Bool :=
  u.passwordResetToken == some tok &&
  (match u.passwordResetAt with
   | some t => decide (t < now)
   | none => false)

/-- authController resetPassword.  Faithful to the statement order: the line
`let resetDate = new Date(user.passwordResetAt)` executes before the
`if (!user || isExpired)` guard, so when the lookup found no user the
handler throws a TypeError instead of reaching the invalid-token branch.
On success the password is rehashed and both reset fields are nulled. -/
def resetPassword (db : DB) (tok pw : String) (now : Nat) :
    Except JsError (ResetResult × DB) :=
  if tok = "" ∨ pw = "" then .ok (.badRequest "Missing required data!", db)
  else
    match db.users.find? (resetLookup tok now) with
    | none =>
      .error (.typeError
        "Cannot read properties of null (reading passwordResetAt)")
    | some u =>
      let resetAt := u.passwordResetAt.getD 0
      if decide (now > resetAt + msPerHour) then
        .ok (.badRequest "Invalid token or token has expired!", db)
      else
        let newUsers := updateFirst (fun v => v._id == u._id)
          (fun v => { v with password := bcryptHash pw,
                             passwordResetToken := none,
                             passwordResetAt := none }) db.users
        .ok (.okMsg "Password reset successfully!",
          { db with users := newUsers })

/-! ### deleteUser / deleteNote / updateUser -/

/-- Response of DELETE /users/:id and DELETE /notes/:id. -/
inductive DeleteResult where
  | badRequest (msg : String)
  | okMsg (msg : String)
deriving Repr, DecidableEq

/-- userController deleteUser: refuse if `Note.findOne({ user: id,
isDeleted: false })` finds a non-deleted note owned by the user; otherwise
soft-delete via `findOneAndUpdate({_id: id}, {isDeleted: true, deletedAt:
date}, {new: true})`.  (`req.params.id` is present on the matched route, so
the `!id` guard is not modelled.) -/
def deleteUser (db : DB) (id now : Nat) : DeleteResult × DB :=
  match db.notes.find? (fun n => n.user == id && n.isDeleted == false) with
  | some _ => (.badRequest "Cannot delete users with assigned notes!", db)
  | none =>
    match findOneAndUpdate (fun u => u._id == id)
        (fun u => { u with isDeleted := true, deletedAt := some now })
        db.users with
    | (none, _) => (.badRequest "User not found!", db)
    | (some u, newUsers) =>
      (.okMsg ("User \"" ++ u.fullname ++ "\" has been deleted!"),
        { db with users := newUsers })

/-- noteController deleteNote: soft-delete via findOneAndUpdate; no
referential precondition. -/
def deleteNote (db : DB) (id now : Nat) : DeleteResult × DB :=
  match findOneAndUpdate (fun n => n._id == id)
      (fun n => { n with isDeleted := true, deletedAt := some now })
      db.notes with
  | (none, _) => (.badRequest "Note not found!", db)
  | (some n, newNotes) =>
    (.okMsg ("Note #" ++ toString n.ticket ++ " deleted successfully!"),
      { db with notes := newNotes })

/-- Request body of PATCH /users/:id (updateUser). -/
structure UpdateUserBody where
  id : Option Nat
  username : String
  fullname : String
  email : String
  role : String
  active : Option Bool
deriving Repr, DecidableEq

/-- Responses of updateUser. -/
inductive UpdateUserResult where
  | badRequest (msg : String)
  | conflict (msg : String)
  | okMsg (msg : String)
deriving Repr, DecidableEq

/-- The save step of updateUser: write the new fields to the found user. -/
def updateUserSave (db : DB) (b : UpdateUserBody) (id : Nat)
    (active : Bool) : UpdateUserResult × DB :=
  let newUsers := updateFirst (fun u => u._id == id)
    (fun u => { u with username := b.username, fullname := b.fullname,
                       email := b.email, role := b.role,
                       active := active }) db.users
  (.okMsg ("User \"" ++ b.fullname ++ "\" updated successfully!"),
    { db with users := newUsers })

/-- The email-uniqueness check of updateUser followed by the save. -/
def updateUserWrite (db : DB) (b : UpdateUserBody) (id : Nat)
    (active : Bool) : UpdateUserResult × DB :=
  match db.users.find? (fun u => u.email == b.email) with
  | some w =>
    if w._id ≠ id then
      (.conflict "This email has already been used!", db)
    else updateUserSave db b id active
  | none => updateUserSave db b id active

/-- userController updateUser: required-data check (`typeof active !==
"boolean"` models as an Option Bool), existence check by id, then the same
case-insensitive username and exact email uniqueness queries as createUser —
with no `isDeleted` condition — excepting only the user being updated
(`existingUser?._id.toString() !== id`); finally the fields are written. -/
def updateUser (db : DB) (b : UpdateUserBody) : UpdateUserResult × DB :=
  match b.id, b.active with
  | none, _ => (.badRequest "Missing required data!", db)
  | some _, none => (.badRequest "Missing required data!", db)
  | some id, some active =>
    if b.username = "" ∨ b.fullname = "" ∨ b.email = "" ∨ b.role = "" then
      (.badRequest "Missing required data!", db)
    else
      match userById db.users id with
      | none => (.badRequest "User not found!", db)
      | some _ =>
        match db.users.find? (fun u => ciEq u.username b.username) with
        | some w =>
          if w._id ≠ id then
            (.conflict "This username already exists!", db)
          else
            updateUserWrite db b id active
        | none => updateUserWrite db b id active

/-! ### Note operations for the ticket-counter invariant -/

/-- A mutation of the note collection: a POST /notes or DELETE /notes/:id
request.  The spec's concurrency model serializes ticket allocation (the
counter is updated by an atomic increment-and-read), so any interleaving of
concurrent requests acts as some sequence of these operations. -/
inductive NoteOp where
  | create (newId now : Nat) (body : CreateNoteBody)
  | del (id now : Nat)
deriving Repr, DecidableEq

/-- Apply one note operation to the store. -/
def applyOp (db : DB) : NoteOp → DB
  | .create newId now body => (createNote db body newId now).2
  | .del id now => (deleteNote db id now).2

/-- Apply a sequence of note operations. -/
def applyOps (db : DB) (ops : List NoteOp) : DB :=
  ops.foldl applyOp db

/-- The store at first start: empty collections, counter at the plugin's
start_seq 500. -/
def initDB : DB :=
  { users := [], notes := [], counter := 500 }

/-- The multiset of assigned ticket numbers. -/
def ticketList (ns : List NoteDoc) : List Nat :=
  ns.map (fun n => n.ticket)

/-- All ticket numbers ever assigned in the store. -/
def ticketsOf (db : DB) : List Nat :=
  ticketList db.notes

/-- The counter invariant: the counter is at or past the start offset and
strictly above every assigned ticket, each of which is at or past the
offset. -/
def TicketInv (db : DB) : Prop :=
  500 ≤ db.counter ∧ ∀ t ∈ ticketsOf db, 500 ≤ t ∧ t < db.counter

instance : DecidablePred TicketInv :=
  fun db => by unfold TicketInv; infer_instance

/-! ### Helper lemmas and concrete fixtures -/

/-- If a member of the list satisfies the query, `find?` returns a hit. -/
theorem find?_hit {α : Type} (p : α → Bool) (l : List α) (x : α)
    (hx : x ∈ l) (hp : p x = true) : ∃ y, l.find? p = some y := by
  cases h : l.find? p with
  | none => exact absurd hp (List.find?_eq_none.mp h x hx)
  | some y => exact ⟨y, rfl⟩

/-- A user fixture with the schema defaults. -/
def mkUser (id : Nat) (uname fname em pw : String) (created : Nat) :
    UserDoc :=
  { _id := id
    username := uname
    fullname := fname
    email := em
    password := pw
    avatarUrl := "https://i.redd.it/6qk9jq22ho541.jpg"
    role := "Employee"
    active := true
    isDeleted := false
    deletedAt := none
    passwordResetToken := none
    passwordResetAt := none
    createdAt := created }

/-- A note fixture with the schema defaults. -/
def mkNote (id uid : Nat) (title : String) (ticket created : Nat) :
    NoteDoc :=
  { _id := id
    user := uid
    title := title
    text := "text"
    status := "Open"
    ticket := ticket
    isDeleted := false
    deletedAt := none
    createdAt := created }

/-! ### C1 -/

/-- C1 (amended): the uniqueness checks before creating or renaming consult
all stored entities, with no `isDeleted` condition: any case-insensitive
username/title match, or exact email match — including a match against a
soft-deleted entity — causes the request to be rejected with a conflict, so
a name held only by deleted entities is not reusable.  Covers createUser
(username, then email), createNote (title), and the updateUser rename
(username match with a different identity). -/
theorem uniqueness_scan_ignores_isDeleted :
    (∀ (db : DB) (body : CreateUserBody) (newId now : Nat),
      body.username ≠ "" → body.fullname ≠ "" → body.email ≠ "" →
      body.password ≠ "" →
      (∃ u ∈ db.users, ciEq u.username body.username = true) →
      createUser db body newId now
        = (.conflict "This username already exists!", db))
    ∧ (∀ (db : DB) (body : CreateUserBody) (newId now : Nat),
      body.username ≠ "" → body.fullname ≠ "" → body.email ≠ "" →
      body.password ≠ "" →
      db.users.find? (fun u => ciEq u.username body.username) = none →
      (∃ u ∈ db.users, u.email = body.email) →
      createUser db body newId now
        = (.conflict "This email has already been used!", db))
    ∧ (∀ (db : DB) (body : CreateNoteBody) (newId now uid : Nat),
      body.user = some uid → body.title ≠ "" → body.text ≠ "" →
      body.status ≠ "" →
      (∃ n ∈ db.notes, ciEq n.title body.title = true) →
      createNote db body newId now
        = (.conflict "This note title has already been used!", db))
    ∧ (∀ (db : DB) (b : UpdateUserBody) (id : Nat) (a : Bool)
        (v w : UserDoc),
      b.id = some id → b.active = some a →
      b.username ≠ "" → b.fullname ≠ "" → b.email ≠ "" → b.role ≠ "" →
      userById db.users id = some v →
      db.users.find? (fun u => ciEq u.username b.username) = some w →
      w._id ≠ id →
      updateUser db b = (.conflict "This username already exists!", db)) := by
  refine ⟨?_, ?_, ?_, ?_⟩
  · intro db body newId now h1 h2 h3 h4 hex
    obtain ⟨u, hu, hci⟩ := hex
    obtain ⟨w, hw⟩ := find?_hit (fun v => ciEq v.username body.username)
      db.users u hu hci
    simp only [createUser]
    rw [if_neg (by simp [h1, h2, h3, h4]), hw]
  · intro db body newId now h1 h2 h3 h4 hnone hex
    obtain ⟨u, hu, hem⟩ := hex
    obtain ⟨w, hw⟩ := find?_hit (fun v => v.email == body.email)
      db.users u hu (beq_iff_eq.mpr hem)
    simp only [createUser]
    rw [if_neg (by simp [h1, h2, h3, h4]), hnone, hw]
  · intro db body newId now uid huser h1 h2 h3 hex
    obtain ⟨n, hn, hci⟩ := hex
    obtain ⟨w, hw⟩ := find?_hit (fun m => ciEq m.title body.title)
      db.notes n hn hci
    simp only [createNote, huser]
    rw [if_neg (by simp [h1, h2, h3]), hw]
  · intro db b id a v w hid hact h1 h2 h3 h4 hv hw hne
    simp only [updateUser, hid, hact, hv, hw]
    rw [if_neg (by simp [h1, h2, h3, h4]), if_pos hne]

/-- Fixture: the only stored user is a soft-deleted "alice". -/
def deletedAlice : UserDoc :=
  { mkUser 1 "alice" "Alice A" "alice@x.com" "$2b$10$s1" 10 with
      isDeleted := true, deletedAt := some 50 }

/-- Fixture database holding only the soft-deleted user. -/
def dbDeletedAlice : DB :=
  { users := [deletedAlice], notes := [], counter := 500 }

/-- Fixture body reusing the deleted user's name with different case. -/
def bodyAliceUpper : CreateUserBody :=
  { username := "Alice", fullname := "Alice Again", email := "new@x.com",
    password := "pw2", role := none }

/-- Witness for C1: on a store whose only user is soft-deleted, creating a
user with the same username in different case is rejected with a
conflict. -/
theorem uniqueness_scan_ignores_isDeleted_witness :
    deletedAlice.isDeleted = true ∧
    createUser dbDeletedAlice bodyAliceUpper 2 100
      = (.conflict "This username already exists!", dbDeletedAlice) :=
  ⟨rfl, uniqueness_scan_ignores_isDeleted.1 dbDeletedAlice bodyAliceUpper
    2 100 (by decide) (by decide) (by decide) (by decide)
    ⟨deletedAlice, by decide, by decide⟩⟩

/-- Fixture: the only stored note is soft-deleted, titled "Fix bug". -/
def deletedNote : NoteDoc :=
  { mkNote 7 1 "Fix bug" 500 20 with isDeleted := true, deletedAt := some 60 }

/-- Fixture database whose only entities are soft-deleted. -/
def dbDeletedBoth : DB :=
  { users := [deletedAlice], notes := [deletedNote], counter := 501 }

/-- Counterexample to C1 as stated: in a store whose only user and only note
are soft-deleted, re-creating the username (case-insensitively) and the note
title are both rejected with a conflict — the name held only by deleted
entities is not reusable, so the uniqueness check does not consult only
non-deleted entities. -/
theorem uniqueness_deleted_match_conflicts :
    (createUser dbDeletedBoth bodyAliceUpper 2 100).1
      = .conflict "This username already exists!" ∧
    (createNote dbDeletedBoth
      { user := some 1, title := "fIx BUG", text := "t", status := "Open" }
      8 101).1
      = .conflict "This note title has already been used!" := by
  constructor
  · rfl
  · rfl

/-! ### C2 -/

/-- C2 (amended): among the read endpoints only GET /users/all projects the
password out (`.select("-password")`); GET /users/:id, GET /account/:id, the
paginated GET /users page, and the login success payload serialize the found
user document in full, stored password hash included. -/
theorem password_exposure :
    (∀ db : DB, ∀ v ∈ (getAllUsers db).list, v.password = none)
    ∧ (∀ (db : DB) (id : Nat) (u : UserDoc),
        userById db.users id = some u →
        getSingleUser db id = .ok (toViewFull u)
        ∧ (toViewFull u).password = some u.password)
    ∧ (∀ (db : DB) (id : Nat) (u : UserDoc),
        userById db.users id = some u →
        getSingleAccount db id = .ok (toViewFull u))
    ∧ (∀ (db : DB) (q : UsersQuery), ∀ v ∈ (getUsers db q).pageList,
        v.password.isSome = true)
    ∧ (∀ (db : DB) (uname pw : String) (view : UserView)
        (tok : TokenPayload) (msg : String),
        login db uname pw = .ok view tok msg →
        view.password.isSome = true) := by
  refine ⟨?_, ?_, ?_, ?_, ?_⟩
  · intro db v hv
    simp only [getAllUsers] at hv
    split at hv
    · simp [UsersListResult.list] at hv
    · simp only [UsersListResult.list, List.mem_map] at hv
      obtain ⟨u, _, rfl⟩ := hv
      rfl
  · intro db id u h
    simp only [getSingleUser, h]
    exact ⟨trivial, rfl⟩
  · intro db id u h
    simp only [getSingleAccount, h]
  · intro db q v hv
    simp only [getUsers] at hv
    split at hv
    · simp [PagedUsersResult.pageList] at hv
    · simp only [PagedUsersResult.pageList, List.mem_map] at hv
      obtain ⟨u, _, rfl⟩ := hv
      rfl
  · intro db uname pw view tok msg h
    simp only [login] at h
    split at h
    · cases h
    · split at h
      · cases h
      · split at h
        · cases h
        · split at h
          · cases h
          · injection h with h1 _ _
            rw [← h1]
            rfl

/-- Fixture: a live user with a stored bcrypt hash. -/
def bobUser : UserDoc :=
  mkUser 2 "bob" "Bob B" "bob@x.com" "$2b$10$pw2" 30

/-- Fixture database holding `bobUser`. -/
def dbBob : DB :=
  { users := [bobUser], notes := [], counter := 500 }

/-- Witness for C2: at the concrete store, GET /users/:id serializes Bob's
document with the stored hash present. -/
theorem password_exposure_witness :
    getSingleUser dbBob 2 = .ok (toViewFull bobUser)
    ∧ (toViewFull bobUser).password = some bobUser.password :=
  password_exposure.2.1 dbBob 2 bobUser (by decide)

/-- Counterexample to C2 as stated: the object returned by the single-user
read endpoint carries the stored password hash, so the hash is not absent
from every read response. -/
theorem password_present_in_getSingleUser :
    (getSingleUser dbBob 2).passwordOf = some "$2b$10$pw2" := rfl


/-! ### C3 -/

/-- The successful createNote store transition: append the note carrying
`ticket = db.counter`, increment the counter. -/
def appendNote (db : DB) (body : CreateNoteBody) (newId now uid : Nat) :
    DB :=
  { db with
      notes := db.notes ++
        [{ _id := newId, user := uid, title := body.title,
           text := body.text, status := body.status,
           ticket := db.counter, isDeleted := false,
           deletedAt := none, createdAt := now }],
      counter := db.counter + 1 }

/-- The deleteNote store transition: soft-delete the first note with the
id. -/
def softDeleteNotes (db : DB) (id now : Nat) : DB :=
  { db with
      notes := updateFirst (fun n => n._id == id)
        (fun n => { n with isDeleted := true, deletedAt := some now })
        db.notes }

/-- `updateFirst` leaves any projection invariant under the update
unchanged. -/
theorem map_updateFirst {α β : Type} (g : α → β) (p : α → Bool) (f : α → α)
    (hf : ∀ x, g (f x) = g x) (l : List α) :
    (updateFirst p f l).map g = l.map g := by
  induction l with
  | nil => rfl
  | cons x xs ih =>
    simp only [updateFirst]
    split
    · simp [hf]
    · simp [ih]

/-- createNote either leaves the store unchanged (validation failure or
title conflict) or performs the `appendNote` transition. -/
theorem createNote_db_cases (db : DB) (body : CreateNoteBody)
    (newId now : Nat) :
    (createNote db body newId now).2 = db ∨
    ∃ uid, (createNote db body newId now).2
      = appendNote db body newId now uid := by
  cases hbu : body.user with
  | none => left; simp [createNote, hbu]
  | some uid =>
    simp only [createNote, hbu]
    split
    · left; rfl
    · split
      · left; rfl
      · right; exact ⟨uid, rfl⟩

/-- deleteNote either leaves the store unchanged (unknown id) or performs
the `softDeleteNotes` transition. -/
theorem deleteNote_db_cases (db : DB) (id now : Nat) :
    (deleteNote db id now).2 = db ∨
    (deleteNote db id now).2 = softDeleteNotes db id now := by
  simp only [deleteNote, findOneAndUpdate]
  cases h : db.notes.find? (fun n => n._id == id) with
  | none => left; simp [h]
  | some x => right; simp [h, softDeleteNotes]

/-- Soft-deleting leaves every assigned ticket in place. -/
theorem ticketsOf_softDeleteNotes (db : DB) (id now : Nat) :
    ticketsOf (softDeleteNotes db id now) = ticketsOf db := by
  show (updateFirst (fun n => n._id == id)
      (fun n => { n with isDeleted := true, deletedAt := some now })
      db.notes).map (fun n => n.ticket)
    = db.notes.map (fun n => n.ticket)
  exact map_updateFirst (fun n => n.ticket) (fun n => n._id == id)
    (fun n => { n with isDeleted := true, deletedAt := some now })
    (fun x => rfl) db.notes

/-- The tickets after a successful create are the old tickets plus the
counter value. -/
theorem ticketsOf_appendNote (db : DB) (body : CreateNoteBody)
    (newId now uid : Nat) :
    ticketsOf (appendNote db body newId now uid)
      = ticketsOf db ++ [db.counter] := by
  simp [ticketsOf, ticketList, appendNote]

/-- Each note operation preserves the counter invariant. -/
theorem ticketInv_applyOp (db : DB) (op : NoteOp) (hinv : TicketInv db) :
    TicketInv (applyOp db op) := by
  cases op with
  | create newId now body =>
    simp only [applyOp]
    rcases createNote_db_cases db body newId now with h | ⟨uid, h⟩
    · rw [h]; exact hinv
    · rw [h]
      refine ⟨Nat.le_succ_of_le hinv.1, ?_⟩
      intro t ht
      rw [ticketsOf_appendNote] at ht
      rcases List.mem_append.mp ht with ht | ht
      · obtain ⟨h1, h2⟩ := hinv.2 t ht
        exact ⟨h1, Nat.lt_succ_of_lt h2⟩
      · rw [List.mem_singleton.mp ht]
        exact ⟨hinv.1, Nat.lt_succ_self _⟩
  | del id now =>
    simp only [applyOp]
    rcases deleteNote_db_cases db id now with h | h
    · rw [h]; exact hinv
    · rw [h]
      refine ⟨hinv.1, ?_⟩
      intro t ht
      rw [ticketsOf_softDeleteNotes] at ht
      exact hinv.2 t ht

/-- A sequence of note operations preserves the counter invariant. -/
theorem ticketInv_applyOps (db : DB) (ops : List NoteOp)
    (hinv : TicketInv db) : TicketInv (applyOps db ops) := by
  induction ops generalizing db with
  | nil => exact hinv
  | cons op ops ih => exact ih (applyOp db op) (ticketInv_applyOp db op hinv)

/-- Any ticket present after one operation was either already assigned or is
strictly greater than every previously assigned ticket. -/
theorem tickets_applyOp_dominate (db : DB) (op : NoteOp)
    (hinv : TicketInv db) :
    ∀ t ∈ ticketsOf (applyOp db op),
      t ∈ ticketsOf db ∨ ∀ s ∈ ticketsOf db, s < t := by
  intro t ht
  cases op with
  | create newId now body =>
    simp only [applyOp] at ht
    rcases createNote_db_cases db body newId now with h | ⟨uid, h⟩
    · rw [h] at ht; exact Or.inl ht
    · rw [h, ticketsOf_appendNote] at ht
      rcases List.mem_append.mp ht with ht | ht
      · exact Or.inl ht
      · rw [List.mem_singleton.mp ht]
        exact Or.inr (fun s hs => (hinv.2 s hs).2)
  | del id now =>
    simp only [applyOp] at ht
    rcases deleteNote_db_cases db id now with h | h
    · rw [h] at ht; exact Or.inl ht
    · rw [h, ticketsOf_softDeleteNotes] at ht
      exact Or.inl ht

/-- No operation duplicates a ticket: distinctness of the assigned tickets
is preserved, even across soft-deletes. -/
theorem tickets_nodup_applyOp (db : DB) (op : NoteOp)
    (hinv : TicketInv db) (hd : (ticketsOf db).Nodup) :
    (ticketsOf (applyOp db op)).Nodup := by
  cases op with
  | create newId now body =>
    simp only [applyOp]
    rcases createNote_db_cases db body newId now with h | ⟨uid, h⟩
    · rw [h]; exact hd
    · rw [h, ticketsOf_appendNote]
      have hfresh : db.counter ∉ ticketsOf db := by
        intro hc
        exact absurd (hinv.2 db.counter hc).2 (Nat.lt_irrefl _)
      simp only [List.nodup_append, List.nodup_cons, List.nodup_nil,
        List.not_mem_nil, not_false_iff, and_true, true_and]
      refine ⟨hd, ?_⟩
      intro s hs hmem
      rw [List.mem_singleton.mp hmem] at hs
      exact hfresh hs
  | del id now =>
    simp only [applyOp]
    rcases deleteNote_db_cases db id now with h | h
    · rw [h]; exact hd
    · rw [h, ticketsOf_softDeleteNotes]
      exact hd

/-- C3: ticket numbers are allocated from the atomic ticketNums counter
starting at offset 500: from a valid store, every sequence of note
operations (any serialization of concurrent creates — the counter update is
an atomic increment-and-read) keeps the invariant; each newly assigned
ticket is strictly greater than every previously assigned one; tickets stay
pairwise distinct and are never reassigned, a soft-delete leaving every
assigned ticket in place. -/
theorem ticket_allocation_monotone :
    (initDB.counter = 500 ∧ TicketInv initDB)
    ∧ (∀ (db : DB) (op : NoteOp), TicketInv db → TicketInv (applyOp db op))
    ∧ (∀ (db : DB) (ops : List NoteOp), TicketInv db →
        TicketInv (applyOps db ops))
    ∧ (∀ (db : DB) (op : NoteOp), TicketInv db →
        ∀ t ∈ ticketsOf (applyOp db op),
          t ∈ ticketsOf db ∨ ∀ s ∈ ticketsOf db, s < t)
    ∧ (∀ (db : DB) (op : NoteOp), TicketInv db → (ticketsOf db).Nodup →
        (ticketsOf (applyOp db op)).Nodup) :=
  ⟨⟨rfl, by decide⟩, ticketInv_applyOp, ticketInv_applyOps,
    tickets_applyOp_dominate, tickets_nodup_applyOp⟩

/-- Fixture operation sequence: create, soft-delete the created note, create
again. -/
def opsFixture : List NoteOp :=
  [.create 1 10 { user := some 1, title := "A", text := "t", status := "Open" },
   .del 1 20,
   .create 2 30 { user := some 1, title := "B", text := "t", status := "Open" }]

/-- Witness for C3: from the initial store the fixture sequence keeps the
invariant, and the two creations received the distinct increasing tickets
500 and 501 — the soft-deleted note's ticket 500 still assigned, not
reused. -/
theorem ticket_allocation_monotone_witness :
    TicketInv (applyOps initDB opsFixture)
    ∧ ticketsOf (applyOps initDB opsFixture) = [500, 501] :=
  ⟨ticket_allocation_monotone.2.2.1 initDB opsFixture (by decide),
    by decide⟩

/-! ### C4 -/

/-- The successful reset transition on a user: rehash and store the new
password, null out both reset fields. -/
def consumeReset (u : UserDoc) (pw : String) : UserDoc :=
  { u with password := bcryptHash pw, passwordResetToken := none,
           passwordResetAt := none }

/-- C4 (amended): for an account with a pending reset ticket (token `tok`
issued at `i`), presenting the correct secret with a new password strictly
after issuance and at or before the 60-minute horizon succeeds: the password
is rehashed and stored and both the reset token and the issuance timestamp
are cleared, after which a second presentation of the same secret does not
succeed (the lookup misses and the handler throws).  Presenting the secret
strictly after the horizon is rejected as invalid, with the expired token
left in place. -/
theorem resetPassword_window (u : UserDoc) (ns : List NoteDoc) (c : Nat)
    (tok pw : String) (i now now2 : Nat)
    (htok : tok ≠ "") (hpw : pw ≠ "")
    (hut : u.passwordResetToken = some tok)
    (hua : u.passwordResetAt = some i) :
    ((i < now ∧ now ≤ i + msPerHour) →
      resetPassword ⟨[u], ns, c⟩ tok pw now
        = .ok (.okMsg "Password reset successfully!",
            ⟨[consumeReset u pw], ns, c⟩)
      ∧ (consumeReset u pw).password = bcryptHash pw
      ∧ (consumeReset u pw).passwordResetToken = none
      ∧ (consumeReset u pw).passwordResetAt = none
      ∧ resetPassword ⟨[consumeReset u pw], ns, c⟩ tok pw now2
          = .error (.typeError
              "Cannot read properties of null (reading passwordResetAt)"))
    ∧ (i + msPerHour < now →
      resetPassword ⟨[u], ns, c⟩ tok pw now
        = .ok (.badRequest "Invalid token or token has expired!",
            ⟨[u], ns, c⟩)) := by
  constructor
  · rintro ⟨h1, h2⟩
    have hlook : resetLookup tok now u = true := by
      simp [resetLookup, hut, hua, h1]
    refine ⟨?_, rfl, rfl, rfl, ?_⟩
    · simp only [resetPassword]
      rw [if_neg (by simp [htok, hpw])]
      have hfind : (show DB from ⟨[u], ns, c⟩).users.find?
          (resetLookup tok now) = some u := by
        simp [List.find?, hlook]
      simp only [hfind, hua, Option.getD_some]
      rw [if_neg (by simp only [decide_eq_true_eq]; exact Nat.not_lt.mpr h2)]
      simp [updateFirst, consumeReset]
    · simp only [resetPassword]
      rw [if_neg (by simp [htok, hpw])]
      have hmiss : resetLookup tok now2 (consumeReset u pw) = false := by
        simp [resetLookup, consumeReset]
      have hfind : (show DB from ⟨[consumeReset u pw], ns, c⟩).users.find?
          (resetLookup tok now2) = none := by
        simp [List.find?, hmiss]
      rw [hfind]
  · intro h
    have h1 : i < now := Nat.lt_of_le_of_lt (Nat.le_add_right i msPerHour) h
    have hlook : resetLookup tok now u = true := by
      simp [resetLookup, hut, hua, h1]
    simp only [resetPassword]
    rw [if_neg (by simp [htok, hpw])]
    have hfind : (show DB from ⟨[u], ns, c⟩).users.find?
        (resetLookup tok now) = some u := by
      simp [List.find?, hlook]
    simp only [hfind, hua, Option.getD_some]
    rw [if_pos (by simp only [decide_eq_true_eq]; exact h)]

/-- Fixture: an account with a pending reset ticket issued at time 0. -/
def resetUserFix : UserDoc :=
  { mkUser 4 "carol" "Carol C" "c@x.com" "$2b$10$old" 40 with
      passwordResetToken := some "tkn", passwordResetAt := some 0 }

/-- Fixture store for the reset-window theorems. -/
def dbResetFix : DB :=
  { users := [resetUserFix], notes := [], counter := 500 }

/-- Witness for C4: at 30 minutes after issuance the reset succeeds,
clearing the ticket, and presenting the same secret again hits the
null-account TypeError instead of succeeding. -/
theorem resetPassword_window_witness :
    resetPassword dbResetFix "tkn" "new" 1800000
      = .ok (.okMsg "Password reset successfully!",
          { users := [consumeReset resetUserFix "new"], notes := [],
            counter := 500 })
    ∧ resetPassword
        { users := [consumeReset resetUserFix "new"], notes := [],
          counter := 500 } "tkn" "new" 1900000
      = .error (.typeError
          "Cannot read properties of null (reading passwordResetAt)") := by
  have h := (resetPassword_window resetUserFix [] 500 "tkn" "new" 0
    1800000 1900000 (by decide) (by decide) rfl rfl).1
    ⟨by decide, by decide⟩
  exact ⟨h.1, h.2.2.2.2⟩

/-- Whether a resetPassword run succeeded. -/
def isResetSuccess : Except JsError (ResetResult × DB) → Bool
  | .ok (.okMsg _, _) => true
  | _ => false

/-- Counterexample to C4 as stated: presenting the correct secret exactly at
the 60-minute horizon (now = issuance + 60 minutes) succeeds — the code
rejects only strictly after the horizon (`date > resetDate`), so "at or
after the horizon is rejected" fails at the boundary. -/
theorem reset_at_horizon_succeeds :
    isResetSuccess (resetPassword dbResetFix "tkn" "new" msPerHour)
      = true := rfl

/-! ### C5 -/

/-- C5: when the presented token (with a non-empty new password) matches no
account — in particular a token already consumed and cleared — the handler
does not reach the invalid-token rejection: `new
Date(user.passwordResetAt)` executes on the null lookup result first, and
the evaluation ends in an uncaught TypeError. -/
theorem resetPassword_null_deref :
    (∀ (db : DB) (tok pw : String) (now : Nat),
      tok ≠ "" → pw ≠ "" →
      db.users.find? (resetLookup tok now) = none →
      resetPassword db tok pw now
        = .error (.typeError
            "Cannot read properties of null (reading passwordResetAt)"))
    ∧ resetPassword dbBob "deadbeef" "newpass" 123456
      = .error (.typeError
          "Cannot read properties of null (reading passwordResetAt)") := by
  constructor
  · intro db tok pw now htok hpw hnone
    simp only [resetPassword]
    rw [if_neg (by simp [htok, hpw]), hnone]
  · rfl

/-- Witness for C5: a concrete store and unknown token satisfying the
hypotheses of the general statement. -/
theorem resetPassword_null_deref_witness :
    resetPassword dbBob "cafe" "pw9" 42
      = .error (.typeError
          "Cannot read properties of null (reading passwordResetAt)") :=
  resetPassword_null_deref.1 dbBob "cafe" "pw9" 42 (by decide) (by decide)
    (by decide)

/-! ### C6 -/

/-- The users-collection update performed by forgotPassword: set the hashed
reset token and issuance timestamp on the user with the given id. -/
def setResetTicket (tokenHash : String) (now uid : Nat)
    (users : List UserDoc) : List UserDoc :=
  updateFirst (fun v => v._id == uid)
    (fun v => { v with passwordResetToken := some tokenHash,
                       passwordResetAt := some now }) users

/-- C6: for a forgot-password request on a known email, the handler stores
the reset token and timestamp and then responds 200 — regardless of the
mail delivery outcome, because `sendMail` reports delivery errors only to
its logging callback and never throws; the rollback branch (nulling the two
fields and reporting 500) is unreachable for a delivery failure, so a
failed delivery leaves the account with the reset ticket pending. -/
theorem forgotPassword_no_rollback :
    (∀ (db : DB) (email tokenHash : String) (now : Nat) (ok : Bool)
       (u : UserDoc),
      db.users.find? (fun v => v.email == email) = some u →
      forgotPassword db email tokenHash now ok
        = (.okMsg
            "Password reset email sent! Please use the reset link within 1 hour!",
           { db with users := setResetTicket tokenHash now u._id db.users }))
    ∧ forgotPassword dbBob "bob@x.com" "th" 1000 false
      = (.okMsg
          "Password reset email sent! Please use the reset link within 1 hour!",
         { users := setResetTicket "th" 1000 2 [bobUser],
           notes := [], counter := 500 }) := by
  constructor
  · intro db email tokenHash now ok u hfind
    simp only [forgotPassword, hfind, sendMailThrows]
    rfl
  · rfl

/-- Witness for C6: the general statement applied at the concrete store with
a failed delivery. -/
theorem forgotPassword_no_rollback_witness :
    forgotPassword dbBob "bob@x.com" "th2" 999 false
      = (.okMsg
          "Password reset email sent! Please use the reset link within 1 hour!",
         { dbBob with users := setResetTicket "th2" 999 2 dbBob.users }) :=
  forgotPassword_no_rollback.1 dbBob "bob@x.com" "th2" 999 false bobUser
    (by decide)

/-! ### C7 -/

/-- On a present, non-empty filter value the truthiness guard keeps it. -/
theorem strFilter_some (s : String) (hne : s ≠ "") :
    strFilter (some s) = some s := by
  unfold strFilter
  split
  · next heq =>
    injection heq with h
    exact absurd h hne
  · rfl

/-- Every element of the skip/limit window of the sorted list is an element
of the underlying list. -/
theorem mem_window {α : Type} (r : α → α → Prop) [DecidableRel r]
    (l : List α) (off lim : Nat) (x : α)
    (hx : x ∈ ((List.insertionSort r l).drop off).take lim) : x ∈ l := by
  have h1 := List.mem_of_mem_take hx
  have h2 := List.mem_of_mem_drop h1
  exact (List.mem_insertionSort r).mp h2

/-- The enrichment step leaves the note's status unchanged. -/
theorem enrichNote_status (db : DB) (n : NoteDoc) :
    (enrichNote db n).status = n.status := by
  unfold enrichNote
  split <;> rfl

/-- A note passing the getNotes filter with a status value present has a
status different from it: the `$ne` condition excludes equal statuses. -/
theorem noteMatches_status (db : DB) (q : NotesQuery) (n : NoteDoc)
    (s : String) (hs : q.status = some s) (hne : s ≠ "")
    (h : noteMatches db q n = true) : n.status ≠ s := by
  have hsf : strFilter q.status = some s := by
    rw [hs]; exact strFilter_some s hne
  simp only [noteMatches, hsf, Bool.and_eq_true] at h
  exact bne_iff_ne.mp h.2

/-- C7: for every paginated note-list request carrying a (non-empty) status
filter value `s`, every note in the returned page has status not equal to
`s` — the filter is an exclusion, matching only records whose status
differs from the given value. -/
theorem getNotes_status_exclusion (db : DB) (q : NotesQuery) (s : String)
    (hs : q.status = some s) (hne : s ≠ "") :
    ∀ v ∈ (getNotes db q).page, v.status ≠ s := by
  intro v hv
  simp only [getNotes] at hv
  split at hv
  · simp [PagedNotesResult.page] at hv
  · simp only [PagedNotesResult.page, List.mem_map] at hv
    obtain ⟨n, hn, rfl⟩ := hv
    have hn2 : n ∈ db.notes.filter (noteMatches db q) :=
      mem_window newerNote _ _ _ n hn
    have hmatch : noteMatches db q n = true := (List.mem_filter.mp hn2).2
    rw [enrichNote_status]
    exact noteMatches_status db q n s hs hne hmatch

/-- Fixture: one open and one completed note owned by Bob. -/
def dbNotesFix : DB :=
  { users := [bobUser],
    notes := [mkNote 10 2 "Open note" 500 20,
              { mkNote 11 2 "Done note" 501 25 with status := "Completed" }],
    counter := 502 }

/-- Fixture query: filter value status=Open. -/
def qStatusOpen : NotesQuery :=
  { page := none, limit := none, ticket := none, term := none,
    status := some "Open" }

/-- Witness for C7: with a status=Open filter over the fixture store, the
completed note's view is in the returned page and its status is not
"Open". -/
theorem getNotes_status_exclusion_witness :
    enrichNote dbNotesFix { mkNote 11 2 "Done note" 501 25 with
        status := "Completed" } ∈ (getNotes dbNotesFix qStatusOpen).page
    ∧ (enrichNote dbNotesFix { mkNote 11 2 "Done note" 501 25 with
        status := "Completed" }).status ≠ "Open" :=
  ⟨by decide,
    getNotes_status_exclusion dbNotesFix qStatusOpen "Open" rfl (by decide)
      _ (by decide)⟩

/-! ### C8 -/

/-- C8: the login token's claim object stores the role under the key
"role", but verifyJWT attaches `req.roles = decoded.UserInfo.roles` — a
read of the absent key "roles" — so for every successfully verified bearer
token the middleware proceeds with the username attached and the roles
context `undefined`: the signed role claim is not exposed to downstream
handlers. -/
theorem verifyJWT_role_claim_dropped :
    (∀ p : TokenPayload, jsGet (userInfoObj p) "role" = .str p.role)
    ∧ (∀ p : TokenPayload, jsGet (userInfoObj p) "roles" = .undefined)
    ∧ (∀ (s : String) (p : TokenPayload),
        ("Bearer ".data.isPrefixOf s.data) = true →
        verifyJWT (some s) (some p)
          = .proceed ⟨.str p.username, .undefined⟩) := by
  refine ⟨fun p => rfl, fun p => rfl, ?_⟩
  intro s p hs
  simp only [verifyJWT, hs]
  rfl

/-- Witness for C8: a concrete well-formed bearer header and a token signed
for role "Admin"; the middleware proceeds with `req.roles` undefined. -/
theorem verifyJWT_role_claim_dropped_witness :
    verifyJWT (some "Bearer abc") (some ⟨"alice", "Admin", "av", 1⟩)
      = .proceed ⟨.str "alice", .undefined⟩ :=
  verifyJWT_role_claim_dropped.2.2 "Bearer abc" ⟨"alice", "Admin", "av", 1⟩
    (by decide)

/-! ### C9 -/

/-- The soft-delete field update applied to a user by deleteUser. -/
def softDeleteUser (now : Nat) (u : UserDoc) : UserDoc :=
  { u with isDeleted := true, deletedAt := some now }

/-- The deleteUser store transition: soft-delete the first user with the
id. -/
def softDeleteUsers (db : DB) (id now : Nat) : DB :=
  { db with
      users := updateFirst (fun v => v._id == id) (softDeleteUser now)
        db.users }

/-- `updateFirst` preserves the length of the collection: no element is
physically removed. -/
theorem length_updateFirst {α : Type} (p : α → Bool) (f : α → α)
    (l : List α) : (updateFirst p f l).length = l.length := by
  induction l with
  | nil => rfl
  | cons x xs ih =>
    simp only [updateFirst]
    split
    · simp
    · simp [ih]

/-- When the update preserves the query key, `find?` after `updateFirst`
returns the updated first match. -/
theorem find?_updateFirst {α : Type} (p : α → Bool) (f : α → α)
    (l : List α) (x : α) (hx : l.find? p = some x)
    (hf : ∀ a, p a = true → p (f a) = true) :
    (updateFirst p f l).find? p = some (f x) := by
  induction l with
  | nil => cases hx
  | cons a as ih =>
    by_cases h : p a = true
    · have hax : a = x := by
        rw [List.find?_cons_of_pos as h] at hx
        injection hx
      subst hax
      simp only [updateFirst]
      rw [if_pos h]
      exact List.find?_cons_of_pos as (hf a h)
    · have h' : ¬ p a := by simpa using h
      rw [List.find?_cons_of_neg as h'] at hx
      simp only [updateFirst]
      rw [if_neg h']
      rw [List.find?_cons_of_neg _ h']
      exact ih hx

/-- C9: for a delete-user request on an existing user: if at least one
non-deleted note references the user as owner, the request is rejected with
a client error and the store is unchanged; otherwise the user is
soft-deleted — isDeleted set, deletedAt set to the deletion time, the
collection length unchanged (never physically removed) — and the user
remains retrievable by id afterwards. -/
theorem deleteUser_guard (db : DB) (id now : Nat) (u : UserDoc)
    (hu : userById db.users id = some u) :
    ((∃ n ∈ db.notes, n.user = id ∧ n.isDeleted = false) →
      deleteUser db id now
        = (.badRequest "Cannot delete users with assigned notes!", db))
    ∧ ((∀ n ∈ db.notes, n.user = id → n.isDeleted = true) →
      deleteUser db id now
        = (.okMsg ("User \"" ++ u.fullname ++ "\" has been deleted!"),
           softDeleteUsers db id now)
      ∧ (softDeleteUsers db id now).users.length = db.users.length
      ∧ userById (softDeleteUsers db id now).users id
          = some (softDeleteUser now u)
      ∧ (softDeleteUser now u).isDeleted = true
      ∧ (softDeleteUser now u).deletedAt = some now
      ∧ getSingleUser (softDeleteUsers db id now) id
          = .ok (toViewFull (softDeleteUser now u))) := by
  constructor
  · rintro ⟨n, hn, hn1, hn2⟩
    have hp : (fun m => m.user == id && m.isDeleted == false) n = true := by
      simp [hn1, hn2]
    obtain ⟨w, hw⟩ := find?_hit
      (fun m => m.user == id && m.isDeleted == false) db.notes n hn hp
    simp only [deleteUser, hw]
  · intro h
    have hnone : db.notes.find?
        (fun m => m.user == id && m.isDeleted == false) = none := by
      refine List.find?_eq_none.mpr (fun n hn hpred => ?_)
      simp only [Bool.and_eq_true, beq_iff_eq] at hpred
      have := h n hn hpred.1
      rw [this] at hpred
      exact absurd hpred.2 (by simp)
    have hu' : db.users.find? (fun v => v._id == id) = some u := hu
    have hupd : (updateFirst (fun v => v._id == id) (softDeleteUser now)
        db.users).find? (fun v => v._id == id)
        = some (softDeleteUser now u) :=
      find?_updateFirst _ _ db.users u hu' (fun a ha => ha)
    refine ⟨?_, length_updateFirst _ _ _, hupd, rfl, rfl, ?_⟩
    · simp only [deleteUser, hnone, findOneAndUpdate, hu']
      rfl
    · simp only [getSingleUser]
      have : userById (softDeleteUsers db id now).users id
          = some (softDeleteUser now u) := hupd
      rw [this]

/-- Witness for C9: deleting Bob while his open note exists is rejected with
the store unchanged; deleting Bob in the store without notes soft-deletes
him. -/
theorem deleteUser_guard_witness :
    deleteUser dbNotesFix 2 99
      = (.badRequest "Cannot delete users with assigned notes!", dbNotesFix)
    ∧ deleteUser dbBob 2 99
      = (.okMsg ("User \"" ++ bobUser.fullname ++ "\" has been deleted!"),
         softDeleteUsers dbBob 2 99) :=
  ⟨(deleteUser_guard dbNotesFix 2 99 bobUser (by decide)).1
    ⟨mkNote 10 2 "Open note" 500 20, by decide, rfl, rfl⟩,
   ((deleteUser_guard dbBob 2 99 bobUser (by decide)).2 (by decide)).1⟩

/-! ### C10 -/

/-- The getUsers result window: matching users sorted by creation time
descending, skipping limit*(page-1) and taking limit. -/
def usersWindow (db : DB) (q : UsersQuery) : List UserDoc :=
  ((List.insertionSort newerUser (db.users.filter (userMatches q))).drop
    (limitOrDefault q.limit * (pageOrDefault q.page - 1))).take
    (limitOrDefault q.limit)

/-- A user passing the getUsers filter is non-deleted. -/
theorem userMatches_isDeleted (q : UsersQuery) (u : UserDoc)
    (h : userMatches q u = true) : u.isDeleted = false := by
  simp only [userMatches, Bool.and_eq_true] at h
  exact beq_iff_eq.mp h.1.1.1

/-- A note passing the getNotes filter is non-deleted. -/
theorem noteMatches_isDeleted (db : DB) (q : NotesQuery) (n : NoteDoc)
    (h : noteMatches db q n = true) : n.isDeleted = false := by
  simp only [noteMatches, Bool.and_eq_true] at h
  exact beq_iff_eq.mp h.1.1.1

/-- The enrichment step leaves the note's creation time unchanged. -/
theorem enrichNote_createdAt (db : DB) (n : NoteDoc) :
    (enrichNote db n).createdAt = n.createdAt := by
  unfold enrichNote
  split <;> rfl

/-- The getNotes result window: matching notes sorted by creation time
descending, skipping limit*(page-1) and taking limit. -/
def notesWindow (db : DB) (q : NotesQuery) : List NoteDoc :=
  ((List.insertionSort newerNote (db.notes.filter (noteMatches db q))).drop
    (limitOrDefault q.limit * (pageOrDefault q.page - 1))).take
    (limitOrDefault q.limit)

/-- C10 (amended): for every paginated list request (users or notes) that
returns a page — the windowed result being non-empty; an empty window is
instead rejected with a 400 — the response carries the page of matching
non-deleted entities sorted by creation time descending and windowed by
skipping (page-1)*limit and taking at most limit, together with the total
matching count and the total page count equal to the ceiling of count
divided by limit. -/
theorem pagination_windows :
    (∀ (db : DB) (q : UsersQuery) (vs : List UserView) (tp c : Nat),
      getUsers db q = .ok vs tp c →
      c = (db.users.filter (userMatches q)).length
      ∧ tp = ceilDiv c (limitOrDefault q.limit)
      ∧ vs = (usersWindow db q).map toViewFull
      ∧ vs.length ≤ limitOrDefault q.limit
      ∧ (∀ v ∈ vs, ∃ u ∈ db.users,
          u.isDeleted = false ∧ userMatches q u = true ∧ v = toViewFull u)
      ∧ vs.Pairwise (fun a b => b.createdAt ≤ a.createdAt))
    ∧ (∀ (db : DB) (q : NotesQuery) (ns : List NoteView) (tp c : Nat),
      getNotes db q = .ok ns tp c →
      c = (db.notes.filter (noteMatches db q)).length
      ∧ tp = ceilDiv c (limitOrDefault q.limit)
      ∧ ns = (notesWindow db q).map (enrichNote db)
      ∧ ns.length ≤ limitOrDefault q.limit
      ∧ (∀ v ∈ ns, ∃ n ∈ db.notes,
          n.isDeleted = false ∧ noteMatches db q n = true
          ∧ v = enrichNote db n)
      ∧ ns.Pairwise (fun a b => b.createdAt ≤ a.createdAt))
    ∧ (∀ (db : DB) (q : UsersQuery), usersWindow db q = [] →
        getUsers db q = .badRequest "No users found!")
    ∧ (∀ (db : DB) (q : NotesQuery), notesWindow db q = [] →
        getNotes db q = .badRequest "No notes found!") := by
  refine ⟨?_, ?_, ?_, ?_⟩
  · intro db q vs tp c h
    simp only [getUsers] at h
    split at h
    · cases h
    · injection h with h1 h2 h3
      subst h1
      subst h2
      subst h3
      have hsort : (List.insertionSort newerUser
          (db.users.filter (userMatches q))).Pairwise newerUser :=
        List.sorted_insertionSort newerUser _
      have hsub : List.Sublist (usersWindow db q)
          (List.insertionSort newerUser
            (db.users.filter (userMatches q))) :=
        List.Sublist.trans (List.take_sublist _ _) (List.drop_sublist _ _)
      refine ⟨rfl, rfl, rfl, ?_, ?_, ?_⟩
      · rw [List.length_map, List.length_take]
        exact min_le_left _ _
      · intro v hv
        obtain ⟨u, hu, rfl⟩ := List.mem_map.mp hv
        have hmem : u ∈ db.users.filter (userMatches q) :=
          mem_window newerUser _ _ _ u hu
        obtain ⟨hul, hum⟩ := List.mem_filter.mp hmem
        exact ⟨u, hul, userMatches_isDeleted q u hum, hum, rfl⟩
      · exact (hsort.sublist hsub).map toViewFull (fun a b hab => hab)
  · intro db q ns tp c h
    simp only [getNotes] at h
    split at h
    · cases h
    · injection h with h1 h2 h3
      subst h1
      subst h2
      subst h3
      have hsort : (List.insertionSort newerNote
          (db.notes.filter (noteMatches db q))).Pairwise newerNote :=
        List.sorted_insertionSort newerNote _
      have hsub : List.Sublist (notesWindow db q)
          (List.insertionSort newerNote
            (db.notes.filter (noteMatches db q))) :=
        List.Sublist.trans (List.take_sublist _ _) (List.drop_sublist _ _)
      refine ⟨rfl, rfl, rfl, ?_, ?_, ?_⟩
      · rw [List.length_map, List.length_take]
        exact min_le_left _ _
      · intro v hv
        obtain ⟨n, hn, rfl⟩ := List.mem_map.mp hv
        have hmem : n ∈ db.notes.filter (noteMatches db q) :=
          mem_window newerNote _ _ _ n hn
        obtain ⟨hnl, hnm⟩ := List.mem_filter.mp hmem
        exact ⟨n, hnl, noteMatches_isDeleted db q n hnm, hnm, rfl⟩
      · refine (hsort.sublist hsub).map (enrichNote db) ?_
        intro a b hab
        show (enrichNote db b).createdAt ≤ (enrichNote db a).createdAt
        rw [enrichNote_createdAt, enrichNote_createdAt]
        exact hab
  · intro db q hw
    simp only [getUsers]
    unfold usersWindow at hw
    rw [hw]
    rfl
  · intro db q hw
    simp only [getNotes]
    unfold notesWindow at hw
    rw [hw]
    rfl

/-- Fixture: a second live user, created after Bob. -/
def carolUser : UserDoc :=
  mkUser 5 "carol2" "Carol D" "cd@x.com" "$2b$10$c" 50

/-- Fixture store with two matching users. -/
def dbPagW : DB :=
  { users := [bobUser, carolUser], notes := [], counter := 500 }

/-- Fixture query with all parameters defaulted. -/
def qDefW : UsersQuery :=
  { page := none, limit := none, fullname := none, role := none,
    active := none }

/-- Fixture: the completed note stored in `dbNotesFix`. -/
def doneNoteFix : NoteDoc :=
  { mkNote 11 2 "Done note" 501 25 with status := "Completed" }

/-- Fixture query: status=Open filter on the second page. -/
def qStatusOpenP2 : NotesQuery :=
  { page := some 2, limit := none, ticket := none, term := none,
    status := some "Open" }

/-- Witness for C10: the default-query page over the two-user store reports
count 2 and is sorted by creation time descending; the status-filtered note
page equals the skip/take window mapped through enrichment; and on the
note store the second page, whose window is empty, is rejected with 400. -/
theorem pagination_windows_witness :
    ((2 : Nat) = (dbPagW.users.filter (userMatches qDefW)).length
      ∧ ([toViewFull carolUser, toViewFull bobUser] :
          List UserView).Pairwise (fun a b => b.createdAt ≤ a.createdAt))
    ∧ [enrichNote dbNotesFix doneNoteFix]
        = (notesWindow dbNotesFix qStatusOpen).map (enrichNote dbNotesFix)
    ∧ getNotes dbNotesFix qStatusOpenP2 = .badRequest "No notes found!" := by
  refine ⟨?_, ?_, ?_⟩
  · have h := pagination_windows.1 dbPagW qDefW
      [toViewFull carolUser, toViewFull bobUser] 1 2 (by decide)
    exact ⟨h.1, h.2.2.2.2.2⟩
  · exact (pagination_windows.2.1 dbNotesFix qStatusOpen
      [enrichNote dbNotesFix doneNoteFix] 1 1 (by decide)).2.2.1
  · exact pagination_windows.2.2.2 dbNotesFix qStatusOpenP2 (by decide)

/-- Fixture query asking for the second page. -/
def qPage2 : UsersQuery :=
  { page := some 2, limit := none, fullname := none, role := none,
    active := none }

/-- Counterexample to C10 as stated: with one matching user and page 2,
limit 10, the window is empty and the request is rejected with a 400 error
message — the response carries neither the (empty) page nor the total count
and page count. -/
theorem getUsers_empty_window_rejects :
    getUsers dbBob qPage2 = .badRequest "No users found!" := rfl

end Meganote
